import Mathlib

/-!
Verification of the gorcon/telnet repository.

The client side (telnet.go, option.go) is embedded as pure functions over
explicit state: the shared response accumulator is a `String` parameter
holding its contents at drain time, socket writes are logged into a list,
and the outcome of each fallible I/O step (write, close, dial) is a
parameter of the model.  Go strings are modeled by Lean strings (their
UTF-8 byte length is `String.utf8ByteSize`); the server side reads raw
bytes, so the wire there is modeled as `List UInt8`.

The server side (telnettest/server.go and the MockServer in
telnet_mockserver_test.go) is embedded with the authentication loops
written as structural recursions whose fuel equals the number of
iterations of the corresponding Go for-loop: `for attempt := 1;
attempt < limit; attempt++` performs `limit - 1` iterations and
`for attempt := 1; attempt <= limit; attempt++` performs `limit`
iterations, with the attempt counter carried explicitly where the body
inspects it.
-/

set_option maxRecDepth 100000

namespace Telnet

/-- Source: MaxCommandLen = 1000 (telnet.go). -/
def MaxCommandLen : Nat := 1000

/-- Source: CRLF = a carriage return followed by a line feed. -/
def CRLF : String := "\r\n"

/-- Source: NullString is a null byte in string format. -/
def NullString : String := String.mk [Char.ofNat 0]

/-- Source: ExecuteTickTimeout = 1 * time.Second, in nanoseconds. -/
def ExecuteTickTimeout : Nat := 1000000000

/-- Source: DefaultDialTimeout = 5 * time.Second, in nanoseconds. -/
def DefaultDialTimeout : Nat := 5000000000

/-- Source: DefaultExitCommand = "exit". -/
def DefaultExitCommand : String := "exit"

/-- A single-quote character, used to spell out string constants. -/
def squote : String := String.mk [Char.ofNat 39]

/-- Source: ResponseEnterPassword (telnet.go). -/
def ResponseEnterPassword : String := "Please enter password"

/-- Source: ResponseAuthSuccess (telnet.go). -/
def ResponseAuthSuccess : String := "Logon successful."

/-- Source: ResponseAuthIncorrectPassword (telnet.go). -/
def ResponseAuthIncorrectPassword : String :=
  "Password incorrect, please enter password:"

/-- Source: ResponseAuthTooManyFails (telnet.go). -/
def ResponseAuthTooManyFails : String := "Too many failed login attempts!"

/-- Source: ResponseWelcome (telnet.go). -/
def ResponseWelcome : String :=
  "Press " ++ squote ++ "help" ++ squote ++
  " to get a list of all commands. Press " ++ squote ++ "exit" ++ squote ++
  " to end session."

/-- Source: fmt.Sprintf(ResponseINFLayout+CRLF, command, localAddr) with
ResponseINFLayout = "INF Executing command!%s!by Telnet from %s"
(the %s slots are surrounded by single quotes in the source). -/
def responseINFMessage (command localAddr : String) : String :=
  "INF Executing command " ++ squote ++ command ++ squote ++
  " by Telnet from " ++ localAddr ++ CRLF

/-- The error values of the package (telnet.go) plus transport errors.
`multi` models fmt.Errorf with ErrMultiErrorOccurred wrapping a close
error and the previous (authentication) error. -/
inductive GoError where
  | authFailed
  | authUnexpected
  | commandEmpty
  | commandTooLong
  | ioErr (msg : String)
  | multi (closeErr : GoError) (prevErr : GoError)
deriving DecidableEq, Repr

/-- The rendered message of an error, following errors.New texts in
telnet.go and the fmt.Errorf format string in Dial. -/
def GoError.message : GoError → String
  | .authFailed => "authentication failed"
  | .authUnexpected => "unexpected authentication response"
  | .commandEmpty => "command too small"
  | .commandTooLong => "command too long"
  | .ioErr m => m
  | .multi e2 e1 =>
      "an error occurred while handling another error" ++ ": " ++
      e2.message ++ ". Previous error: " ++ e1.message

/-- strings.ReplaceAll(response, NullString, ""): removing every
occurrence of the one-byte null pattern deletes every null character. -/
def removeNulls (s : String) : String :=
  String.mk (s.data.filter (fun c => c != Char.ofNat 0))

/-- The unicode.IsSpace predicate of Go: the six ASCII space characters
plus the Unicode White_Space code points. -/
def goIsSpace (c : Char) : Bool :=
  c == ' ' || c == Char.ofNat 9 || c == Char.ofNat 10 || c == Char.ofNat 11 ||
  c == Char.ofNat 12 || c == Char.ofNat 13 || c == Char.ofNat 0x85 ||
  c == Char.ofNat 0xA0 || c == Char.ofNat 0x1680 ||
  (0x2000 ≤ c.toNat && c.toNat ≤ 0x200A) ||
  c == Char.ofNat 0x2028 || c == Char.ofNat 0x2029 || c == Char.ofNat 0x202F ||
  c == Char.ofNat 0x205F || c == Char.ofNat 0x3000

/-- strings.TrimSpace: drop leading and trailing white space. -/
def goTrimSpace (s : String) : String :=
  String.mk (((s.data.dropWhile goIsSpace).reverse.dropWhile goIsSpace).reverse)

/-- strings.TrimPrefix(s, pre): remove the leading pre when present. -/
def goTrimPre (s pre : String) : String :=
  if pre.data.isPrefixOf s.data then String.mk (s.data.drop pre.data.length) else s

/-- strings.TrimSuffix(s, suf): remove the trailing suf when present. -/
def goTrimSuf (s suf : String) : String :=
  if suf.data.isSuffixOf s.data then
    String.mk (s.data.take (s.data.length - suf.data.length))
  else s

/-- The index of the first occurrence of sep in l (strings.Index). -/
def findSub (sep : List Char) : List Char → Option Nat
  | [] => if sep.isPrefixOf [] then some 0 else none
  | c :: t =>
      if sep.isPrefixOf (c :: t) then some 0
      else (findSub sep t).map (· + 1)

/-- strings.Contains(s, sub): sub occurs somewhere in s. -/
def goContains (s sub : String) : Bool := (findSub sub.data s.data).isSome

/-- strings.Split around every non-overlapping occurrence of sep, scanning
left to right, with explicit fuel (one unit per emitted field). -/
def goSplitF (fuel : Nat) (sep l : List Char) : List (List Char) :=
  match fuel with
  | 0 => [l]
  | fuel + 1 =>
      if sep = [] then l.map (fun c => [c])
      else
        match findSub sep l with
        | none => [l]
        | some i => l.take i :: goSplitF fuel sep (l.drop (i + sep.length))

/-- strings.Split(l, sep): l.length + 1 fields always suffice because each
recursive step consumes at least one element of l. -/
def goSplit (sep l : List Char) : List (List Char) :=
  goSplitF (l.length + 1) sep l

/-- Settings of the client (option.go). -/
structure Settings where
  dialTimeout : Nat
  exitCommand : String
  clearResponse : Bool
deriving DecidableEq, Repr

/-- Source: DefaultSettings (option.go). -/
def DefaultSettings : Settings :=
  { dialTimeout := DefaultDialTimeout
    exitCommand := DefaultExitCommand
    clearResponse := false }

/-- Source: SetClearResponse (option.go), as a Settings modifier. -/
def SetClearResponse (clear : Bool) (s : Settings) : Settings :=
  { s with clearResponse := clear }

/-- Source: SetExitCommand (option.go). -/
def SetExitCommand (command : String) (s : Settings) : Settings :=
  { s with exitCommand := command }

/-- Outcome of Conn.execute: the two Go return values (response, err), the
accumulator contents after the call, the write calls issued to the socket,
and the sleeps performed (in nanoseconds). -/
structure ExecOut where
  response : String
  err : Option GoError
  buffer : String
  writes : List String
  slept : List Nat
deriving DecidableEq, Repr

/-- Conn.execute (telnet.go, lines 210-232).  `writeOk` tells whether the
socket write succeeds and `writeErr` is the transport error it returns
when it fails; `buffer` is the contents of the shared accumulator at the
moment it is drained, after the tick sleep. -/
def goExecute (writeOk : Bool) (writeErr : GoError) (buffer command : String) :
    ExecOut :=
  if command = "" then
    ⟨"", some .commandEmpty, buffer, [], []⟩
  else if MaxCommandLen < command.utf8ByteSize then
    ⟨"", some .commandTooLong, buffer, [], []⟩
  else if writeOk then
    ⟨goTrimSpace (removeNulls buffer), none, "", [command ++ CRLF],
      [ExecuteTickTimeout]⟩
  else
    ⟨"", some writeErr, buffer, [command ++ CRLF], []⟩

/-- Outcome of Conn.auth: the returned error, the stored status field, the
accumulator contents afterwards and the socket writes issued. -/
structure AuthOut where
  err : Option GoError
  status : String
  buffer : String
  writes : List String
deriving DecidableEq, Repr

/-- Conn.auth (telnet.go, lines 186-207): run execute on the password,
store the response as the status, then classify it. -/
def goAuth (writeOk : Bool) (writeErr : GoError) (buffer password : String) :
    AuthOut :=
  let e := goExecute writeOk writeErr buffer password
  let status := e.response
  match e.err with
  | some err => ⟨some err, status, e.buffer, e.writes⟩
  | none =>
      if goContains status ResponseAuthIncorrectPassword then
        ⟨some .authFailed, status, e.buffer, e.writes⟩
      else if goContains status ResponseAuthSuccess = false then
        ⟨some .authUnexpected, status, e.buffer, e.writes⟩
      else
        let s1 := goTrimPre status (ResponseEnterPassword ++ CRLF ++ ResponseAuthSuccess)
        let s2 := goTrimSuf s1 (CRLF ++ CRLF ++ ResponseWelcome)
        ⟨none, goTrimSpace s2, e.buffer, e.writes⟩

/-- Conn.Execute (telnet.go, lines 145-159): run execute, then, when the
clearResponse option is set, split the response around the diagnostic INF
echo line and return the second field when the split produced one. -/
def goConnExecute (settings : Settings) (localAddr : String) (writeOk : Bool)
    (writeErr : GoError) (buffer command : String) : ExecOut :=
  let out := goExecute writeOk writeErr buffer command
  match out.err with
  | some _ => out
  | none =>
      if settings.clearResponse then
        let msg := responseINFMessage command localAddr
        let tmp := goSplit msg.data out.response.data
        if h : 1 < tmp.length then
          { out with response := String.mk (tmp.get ⟨1, h⟩) }
        else out
      else out

/-- Abbreviation: the character list of the drained, cleaned response
produced by a successful execute on accumulator contents `buffer`. -/
def drained (buffer : String) : List Char :=
  (goTrimSpace (removeNulls buffer)).data

/-- Abbreviation: the character list of the diagnostic INF echo line. -/
def infMsg (command localAddr : String) : List Char :=
  (responseINFMessage command localAddr).data

/-- Outcome of Dial: whether a connection value is returned, the error,
the stored status and the socket writes issued over the whole call. -/
structure DialOut where
  conn : Bool
  err : Option GoError
  status : String
  writes : List String
deriving DecidableEq, Repr

/-- Dial (telnet.go, lines 85-112).  `connOk`/`connErr` describe the TCP
dial outcome, `closeErr` the outcome of the cleanup Close performed when
authentication fails.  Close first writes the exit command and then closes
the socket (telnet.go, lines 177-183). -/
def goDial (connOk : Bool) (connErr : GoError) (writeOk : Bool)
    (writeErr : GoError) (buffer : String) (closeErr : Option GoError)
    (settings : Settings) (password : String) : DialOut :=
  if connOk = false then
    ⟨false, some connErr, "", []⟩
  else
    let a := goAuth writeOk writeErr buffer password
    match a.err with
    | some e =>
        let ws := a.writes ++ [settings.exitCommand ++ CRLF]
        match closeErr with
        | some e2 => ⟨true, some (.multi e2 e), a.status, ws⟩
        | none => ⟨true, some e, a.status, ws⟩
    | none => ⟨true, none, a.status, a.writes⟩

/-! ## Server side: telnettest/server.go and the MockServer of
telnet_mockserver_test.go.  The wire is raw bytes; Go strings on this side
are represented by their byte lists (all constants involved are ASCII). -/

/-- The bytes of an ASCII string (each char below 128 is one byte). -/
def asciiBytes (s : String) : List UInt8 :=
  s.data.map (fun c => UInt8.ofNat c.toNat)

/-- One password read of the auth loops: p := make an n-byte buffer, read
into it, convert the whole buffer to a string.  Bytes beyond the end of
the input leave the buffer zero-filled. -/
def readChunk (n : Nat) (input : List UInt8) : List UInt8 :=
  input.take n ++ List.replicate (n - input.length) 0

/-- Source: AuthSuccessWelcomeMessage (telnettest/server.go); its last
line is textually the ResponseWelcome constant. -/
def AuthSuccessWelcomeMessage : String :=
  "*** Connected with 7DTD server.\n" ++
  "*** Server version: Alpha 18.4 (b4) Compatibility Version: Alpha 18.4\n" ++
  "*** Dedicated server only build\n\n" ++
  "Server IP:   127.0.0.1\n" ++
  "Server port: 26900\n" ++
  "Max players: 8\n" ++
  "Game mode:   GameModeSurvival\n" ++
  "World:       Navezgane\n" ++
  "Game name:   My Game\n" ++
  "Difficulty:  2\n\n" ++ ResponseWelcome

/-- Source: MockAuthSuccessWelcomeMessage (telnet_mockserver_test.go),
textually identical to AuthSuccessWelcomeMessage. -/
def MockAuthSuccessWelcomeMessage : String := AuthSuccessWelcomeMessage

/-- The per-connection Context of telnettest (request, Auth.Success,
Auth.Break) together with the lines written to the client so far. -/
structure Ctx where
  request : List UInt8
  authSuccess : Bool
  authBreak : Bool
  out : List String
deriving DecidableEq, Repr

/-- The default AuthHandler (telnettest/server.go, lines 57-68): a match
against the configured password writes the success banner and sets both
Auth fields; anything else writes the incorrect-password prompt. -/
def authHandler (password : List UInt8) (c : Ctx) : Ctx :=
  if c.request = password then
    { c with
      out := c.out ++
        [ResponseAuthSuccess ++ CRLF ++ CRLF ++ CRLF ++ CRLF,
         AuthSuccessWelcomeMessage ++ CRLF ++ CRLF]
      authSuccess := true
      authBreak := true }
  else
    { c with out := c.out ++ [ResponseAuthIncorrectPassword ++ CRLF] }

/-- Source: const limit = 10 in both auth loops. -/
def authLimit : Nat := 10

/-- Result of running a server auth loop: the returned Bool, the final
context, the chunks read from the client, and the number of handler
invocations performed. -/
structure AuthRunOut where
  success : Bool
  ctx : Ctx
  reads : List (List UInt8)
  calls : Nat
deriving DecidableEq, Repr

/-- The loop body of Server.auth (telnettest/server.go, lines 261-277):
each iteration reads exactly n bytes, invokes the handler on them and
stops when the handler set Auth.Break.  Fuel counts the remaining
iterations; when it runs out the loop falls through to the
too-many-failed-attempts write (lines 279-281). -/
def srvAuthLoop (handler : Ctx → Ctx) (n : Nat) :
    Nat → List UInt8 → Ctx → AuthRunOut
  | 0, _, c =>
      ⟨false, { c with out := c.out ++ [ResponseAuthTooManyFails ++ CRLF] },
        [], 0⟩
  | fuel + 1, input, c =>
      let req := readChunk n input
      let c1 := handler { c with request := req }
      if c1.authBreak then ⟨c1.authSuccess, c1, [req], 1⟩
      else
        let rest := srvAuthLoop handler n fuel (input.drop n) c1
        ⟨rest.success, rest.ctx, req :: rest.reads, rest.calls + 1⟩

/-- Server.auth (telnettest/server.go, lines 255-282): write the
enter-password prompt, then loop.  The Go loop head is
`for attempt := 1; attempt < limit; attempt++`, so it performs
limit - 1 iterations. -/
def srvAuth (handler : Ctx → Ctx) (password : List UInt8)
    (input : List UInt8) : AuthRunOut :=
  srvAuthLoop handler password.length (authLimit - 1) input
    ⟨[], false, false, [ResponseEnterPassword ++ CRLF]⟩

/-- Source: MockPassword = "password" (telnet_mockserver_test.go). -/
def MockPassword : String := "password"

/-- The bytes of MockPassword; the read size is len of these bytes. -/
def mockPasswordBytes : List UInt8 := asciiBytes MockPassword

/-- The sentinel password of the mock auth switch. -/
def unexpectSentinel : List UInt8 := asciiBytes "unexpect"

/-- Result of MockServer.auth: the returned Bool, the lines written after
the enter-password prompt, the chunks read and the number of password
checks performed. -/
structure MockAuthOut where
  success : Bool
  out : List String
  reads : List (List UInt8)
  checks : Nat
deriving DecidableEq, Repr

/-- The loop of MockServer.auth (telnet_mockserver_test.go, lines
235-258): `for attempt := 1; attempt <= limit; attempt++`, so the fuel is
limit and the attempt counter is carried because the body compares it
with the limit.  Each iteration reads exactly len(MockPassword) bytes and
switches on the result; a wrong password on the last attempt writes the
too-many-failed-attempts message.  Exhausted fuel is the `return false`
after the loop, unreachable from mockAuth. -/
def mockAuthLoop : Nat → Nat → List UInt8 → MockAuthOut
  | 0, _, _ => ⟨false, [], [], 0⟩
  | fuel + 1, attempt, input =>
      let req := readChunk mockPasswordBytes.length input
      if req = mockPasswordBytes then
        ⟨true,
          [ResponseAuthSuccess ++ CRLF ++ CRLF ++ CRLF ++ CRLF,
           MockAuthSuccessWelcomeMessage ++ CRLF ++ CRLF], [req], 1⟩
      else if req = unexpectSentinel then
        ⟨false, ["My spoon is too big" ++ CRLF ++ CRLF], [req], 1⟩
      else if attempt = authLimit then
        ⟨false, [ResponseAuthTooManyFails ++ CRLF], [req], 1⟩
      else
        let rest := mockAuthLoop fuel (attempt + 1) (input.drop mockPasswordBytes.length)
        ⟨rest.success, (ResponseAuthIncorrectPassword ++ CRLF) :: rest.out,
          req :: rest.reads, rest.checks + 1⟩

/-- MockServer.auth (telnet_mockserver_test.go, lines 229-261): write the
enter-password prompt, then run the attempt loop from attempt 1. -/
def mockAuth (input : List UInt8) : MockAuthOut :=
  let r := mockAuthLoop authLimit 1 input
  { r with out := (ResponseEnterPassword ++ CRLF) :: r.out }

/-- Source: errors chan created with capacity 10 in NewMockServer. -/
def mockErrorsCap : Nat := 10

/-- Result of MockServer.reportError: the returned Bool, the queue after
the call and the diagnostic lines printed to standard output. -/
structure ReportOut where
  returned : Bool
  queue : List String
  printed : List String
deriving DecidableEq, Repr

/-- MockServer.reportError (telnet_mockserver_test.go, lines 213-226):
nil errors are ignored; a select with a default sends to the buffered
errors channel when it has free space and otherwise prints a diagnostic
notice and drops the error, never blocking. -/
def reportError (queue : List String) (err : Option String) : ReportOut :=
  match err with
  | none => ⟨false, queue, []⟩
  | some e =>
      if queue.length < mockErrorsCap then ⟨true, queue ++ [e], []⟩
      else ⟨false, queue, ["erros channel is locked: " ++ e ++ "\n"]⟩

/-- State of a telnettest Server relevant to Close: the closed flag, the
quit channel, the listener and the registered connections. -/
structure TSrvState where
  closed : Bool
  quitClosed : Bool
  listenerClosed : Bool
  connections : List Nat
deriving DecidableEq, Repr

/-- Server.Close (telnettest/server.go, lines 133-151): guarded by the
closed flag; the first call signals quit, closes the listener, waits and
force-closes the remaining connections. -/
def serverClose (st : TSrvState) : TSrvState :=
  if st.closed then st
  else { closed := true, quitClosed := true, listenerClosed := true,
         connections := [] }

/-- State of a MockServer relevant to Close. -/
structure MockSrvState where
  quitClosed : Bool
  listenerClosed : Bool
  errorsClosed : Bool
  connections : List Nat
deriving DecidableEq, Repr

/-- Outcome of a MockServer.Close call: either a normal return carrying
the optional error value, or a Go runtime panic. -/
inductive CloseResult where
  | ok (err : Option String)
  | panicked (msg : String)
deriving DecidableEq, Repr

/-- MockServer.Close (telnet_mockserver_test.go, lines 75-100): it has no
closed guard and starts with close(s.quit); the Go runtime panics when a
channel is closed twice, so a second call panics before doing anything
else.  A first call closes the quit channel, the listener, the remaining
connections and the errors channel. -/
def mockClose (st : MockSrvState) : CloseResult × MockSrvState :=
  if st.quitClosed then (.panicked "close of closed channel", st)
  else (.ok none, ⟨true, true, true, []⟩)

/-! ## Helper lemmas -/

/-- On a non-empty command within the length bound whose write succeeds,
execute drains, cleans and returns the accumulator. -/
theorem goExecute_valid (writeErr : GoError) (buffer command : String)
    (hne : command ≠ "") (hlen : command.utf8ByteSize ≤ MaxCommandLen) :
    goExecute true writeErr buffer command =
      ⟨goTrimSpace (removeNulls buffer), none, "", [command ++ CRLF],
        [ExecuteTickTimeout]⟩ := by
  simp [goExecute, hne, Nat.not_lt.mpr hlen]

/-- Public Execute on a valid command reduces to the split post-processing
over the drained response. -/
theorem goConnExecute_of_valid (settings : Settings) (localAddr : String)
    (writeErr : GoError) (buffer command : String)
    (hne : command ≠ "") (hlen : command.utf8ByteSize ≤ MaxCommandLen) :
    goConnExecute settings localAddr true writeErr buffer command =
      (let out : ExecOut := ⟨goTrimSpace (removeNulls buffer), none, "",
          [command ++ CRLF], [ExecuteTickTimeout]⟩
       if settings.clearResponse then
         let tmp := goSplit (responseINFMessage command localAddr).data
             out.response.data
         if h : 1 < tmp.length then
           { out with response := String.mk (tmp.get ⟨1, h⟩) }
         else out
       else out) := by
  unfold goConnExecute
  rw [goExecute_valid writeErr buffer command hne hlen]

/-- A list starts with itself in the Boolean sense. -/
theorem isPrefixOf_append_self (l t : List Char) :
    l.isPrefixOf (l ++ t) = true := by
  induction l with
  | nil => simp [List.isPrefixOf]
  | cons a as ih => simp [List.isPrefixOf, ih]

/-- findSub finds an occurrence whenever the text decomposes around the
pattern. -/
theorem findSub_isSome_decomp (sep pre suf : List Char) :
    (findSub sep (pre ++ (sep ++ suf))).isSome = true := by
  induction pre with
  | nil =>
      have hp : sep.isPrefixOf (sep ++ suf) = true :=
        isPrefixOf_append_self sep suf
      cases hss : sep ++ suf with
      | nil =>
          have h0 : sep = [] := (List.append_eq_nil.mp hss).1
          subst h0
          simp [findSub]
      | cons c t =>
          rw [hss] at hp
          simp [findSub, hp]
  | cons c pre ih =>
      by_cases hp : sep.isPrefixOf (c :: (pre ++ (sep ++ suf)))
      · simp [findSub, hp]
      · simp [findSub, hp, ih]

/-- strings.Contains holds whenever the text decomposes around the
pattern. -/
theorem goContains_decomp (s sub : String) (pre suf : List Char)
    (h : s.data = pre ++ (sub.data ++ suf)) : goContains s sub = true := by
  unfold goContains
  rw [h]
  exact findSub_isSome_decomp _ _ _

/-- isPrefixOf into the empty list characterizes the empty pattern. -/
theorem isPrefixOf_nil_iff (sep : List Char) :
    sep.isPrefixOf ([] : List Char) = true ↔ sep = [] := by
  cases sep <;> simp [List.isPrefixOf]

/-- findSub misses when no position carries the pattern. -/
theorem findSub_eq_none_of (sep l : List Char)
    (h : ∀ k, sep.isPrefixOf (l.drop k) = false) : findSub sep l = none := by
  induction l with
  | nil =>
      have h0 := h 0
      simp only [List.drop_zero] at h0
      simp [findSub, h0]
  | cons c t ih =>
      have h0 : sep.isPrefixOf (c :: t) = false := by simpa using h 0
      have ht : findSub sep t = none :=
        ih (fun k => by simpa using h (k + 1))
      simp [findSub, h0, ht]

/-- A bounded miss hypothesis suffices for a non-empty pattern, because
beyond the end of the text the drop is empty. -/
theorem findSub_eq_none_of_bounded (sep l : List Char) (hsep : sep ≠ [])
    (h : ∀ k, k < l.length → sep.isPrefixOf (l.drop k) = false) :
    findSub sep l = none := by
  apply findSub_eq_none_of
  intro k
  by_cases hk : k < l.length
  · exact h k hk
  · rw [List.drop_eq_nil_of_le (by omega)]
    cases sep with
    | nil => exact absurd rfl hsep
    | cons a s => rfl

/-- findSub returns the first position carrying the pattern. -/
theorem findSub_eq_some_of (sep l : List Char) (i : Nat)
    (hp : sep.isPrefixOf (l.drop i) = true)
    (hmin : ∀ k, k < i → sep.isPrefixOf (l.drop k) = false) :
    findSub sep l = some i := by
  induction l generalizing i with
  | nil =>
      rw [List.drop_nil] at hp
      cases i with
      | zero => simp [findSub, hp]
      | succ m =>
          exfalso
          have h0 := hmin 0 (by omega)
          rw [List.drop_nil, hp] at h0
          exact absurd h0 (by decide)
  | cons c t ih =>
      cases i with
      | zero =>
          rw [List.drop_zero] at hp
          simp [findSub, hp]
      | succ m =>
          have h0 : sep.isPrefixOf (c :: t) = false := by simpa using hmin 0 (by omega)
          have hp' : sep.isPrefixOf (t.drop m) = true := by simpa using hp
          have hmin' : ∀ k, k < m → sep.isPrefixOf (t.drop k) = false :=
            fun k hk => by simpa using hmin (k + 1) (by omega)
          simp [findSub, h0, ih m hp' hmin']

/-- A text carrying the pattern somewhere is non-empty when the pattern
is. -/
theorem ne_nil_of_occurrence (sep l : List Char) (i : Nat) (hsep : sep ≠ [])
    (hp : sep.isPrefixOf (l.drop i) = true) : l ≠ [] := by
  rintro rfl
  rw [List.drop_nil] at hp
  exact hsep ((isPrefixOf_nil_iff sep).mp hp)

/-- The one-step unfolding of goSplitF at positive fuel. -/
theorem goSplitF_succ (f : Nat) (sep l : List Char) :
    goSplitF (f + 1) sep l =
      if sep = [] then l.map (fun c => [c])
      else
        match findSub sep l with
        | none => [l]
        | some i => l.take i :: goSplitF f sep (l.drop (i + sep.length)) := rfl

/-- The INF echo line is never the empty string. -/
theorem responseINFMessage_ne_nil (command localAddr : String) :
    (responseINFMessage command localAddr).data ≠ [] := by
  intro h
  unfold responseINFMessage at h
  simp only [String.data_append, List.append_assoc, List.append_eq_nil] at h
  have h1 : ("INF Executing command " : String).data ≠ [] := by decide
  exact h1 h.1

/-- Split of a text without any occurrence of the pattern. -/
theorem goSplit_no_occ (sep l : List Char) (hsep : sep ≠ [])
    (h : ∀ k, k < l.length → sep.isPrefixOf (l.drop k) = false) :
    goSplit sep l = [l] := by
  unfold goSplit
  rw [goSplitF_succ, if_neg hsep, findSub_eq_none_of_bounded sep l hsep h]

/-- Split of a text with exactly one occurrence of the pattern: the field
before it and the field after it. -/
theorem goSplit_unique_occ (sep l : List Char) (hsep : sep ≠ []) (i : Nat)
    (hp : sep.isPrefixOf (l.drop i) = true)
    (hmin : ∀ k, k < i → sep.isPrefixOf (l.drop k) = false)
    (hafter : ∀ k, i + sep.length ≤ k → k < l.length →
      sep.isPrefixOf (l.drop k) = false) :
    goSplit sep l = [l.take i, l.drop (i + sep.length)] := by
  have hfind := findSub_eq_some_of sep l i hp hmin
  have hlne : l ≠ [] := ne_nil_of_occurrence sep l i hsep hp
  obtain ⟨m, hm⟩ : ∃ m, l.length = m + 1 := by
    cases l with
    | nil => exact absurd rfl hlne
    | cons a t => exact ⟨t.length, rfl⟩
  have hnone : findSub sep (l.drop (i + sep.length)) = none := by
    apply findSub_eq_none_of_bounded sep _ hsep
    intro k hk
    rw [List.length_drop] at hk
    rw [List.drop_drop]
    exact hafter (i + sep.length + k) (by omega) (by omega)
  unfold goSplit
  rw [goSplitF_succ, if_neg hsep, hfind]
  dsimp only
  rw [hm, goSplitF_succ, if_neg hsep, hnone]

/-- Split of a text whose first occurrence of the pattern at i is
followed by a next occurrence at j: the second field is the segment
strictly between the two occurrences. -/
theorem goSplit_two_occ (sep l : List Char) (hsep : sep ≠ []) (i j : Nat)
    (hp : sep.isPrefixOf (l.drop i) = true)
    (hmin : ∀ k, k < i → sep.isPrefixOf (l.drop k) = false)
    (hpj : sep.isPrefixOf (l.drop j) = true)
    (hij : i + sep.length ≤ j)
    (hbet : ∀ k, i + sep.length ≤ k → k < j →
      sep.isPrefixOf (l.drop k) = false) :
    ∃ rest, goSplit sep l =
      l.take i :: ((l.drop (i + sep.length)).take (j - (i + sep.length))) :: rest := by
  have hfind := findSub_eq_some_of sep l i hp hmin
  have hlne : l ≠ [] := ne_nil_of_occurrence sep l i hsep hp
  obtain ⟨m, hm⟩ : ∃ m, l.length = m + 1 := by
    cases l with
    | nil => exact absurd rfl hlne
    | cons a t => exact ⟨t.length, rfl⟩
  have hpj' : sep.isPrefixOf ((l.drop (i + sep.length)).drop
      (j - (i + sep.length))) = true := by
    rw [List.drop_drop]
    have : i + sep.length + (j - (i + sep.length)) = j := by omega
    rw [this]
    exact hpj
  have hmin' : ∀ k, k < j - (i + sep.length) →
      sep.isPrefixOf ((l.drop (i + sep.length)).drop k) = false := by
    intro k hk
    rw [List.drop_drop]
    exact hbet (i + sep.length + k) (by omega) (by omega)
  have hfind2 := findSub_eq_some_of sep (l.drop (i + sep.length))
    (j - (i + sep.length)) hpj' hmin'
  unfold goSplit
  rw [goSplitF_succ, if_neg hsep, hfind]
  dsimp only
  rw [hm, goSplitF_succ, if_neg hsep, hfind2]
  exact ⟨_, rfl⟩

/-! ## Claim theorems -/

/-- C1: for every non-empty command of length at most 1000 whose socket
write succeeds, execute sleeps the fixed tick duration, returns the whole
accumulator contents at drain time with every null byte removed and
surrounding whitespace trimmed, and leaves the accumulator empty. -/
theorem execute_drains_and_trims (writeErr : GoError)
    (buffer command : String) (hne : command ≠ "")
    (hlen : command.utf8ByteSize ≤ MaxCommandLen) :
    goExecute true writeErr buffer command =
      ⟨goTrimSpace (removeNulls buffer), none, "", [command ++ CRLF],
        [ExecuteTickTimeout]⟩ :=
  goExecute_valid writeErr buffer command hne hlen

/-- C1 witness at a concrete command and accumulator. -/
theorem execute_drains_and_trims_inst :
    goExecute true (.ioErr "") (NullString ++ " hi " ++ NullString) "version" =
      ⟨"hi", none, "", ["version" ++ CRLF], [ExecuteTickTimeout]⟩ := by
  rw [execute_drains_and_trims (.ioErr "") (NullString ++ " hi " ++ NullString)
    "version" (by decide) (by decide)]
  decide

/-- C2: auth classifies the drained response: an incorrect-password
marker yields the authentication-failed error; absence of the success
marker yields the unexpected-response error; otherwise auth succeeds and
the stored status is the response with the fixed enter-password/success
framing removed from front and back and whitespace trimmed. -/
theorem auth_classifies_response (writeErr : GoError)
    (buffer password : String) (hne : password ≠ "")
    (hlen : password.utf8ByteSize ≤ MaxCommandLen) :
    (goContains (goTrimSpace (removeNulls buffer))
        ResponseAuthIncorrectPassword = true →
      goAuth true writeErr buffer password =
        ⟨some .authFailed, goTrimSpace (removeNulls buffer), "",
          [password ++ CRLF]⟩)
    ∧ (goContains (goTrimSpace (removeNulls buffer))
        ResponseAuthIncorrectPassword = false →
       goContains (goTrimSpace (removeNulls buffer))
        ResponseAuthSuccess = false →
      goAuth true writeErr buffer password =
        ⟨some .authUnexpected, goTrimSpace (removeNulls buffer), "",
          [password ++ CRLF]⟩)
    ∧ (goContains (goTrimSpace (removeNulls buffer))
        ResponseAuthIncorrectPassword = false →
       goContains (goTrimSpace (removeNulls buffer))
        ResponseAuthSuccess = true →
      goAuth true writeErr buffer password =
        ⟨none,
          goTrimSpace (goTrimSuf
            (goTrimPre (goTrimSpace (removeNulls buffer))
              (ResponseEnterPassword ++ CRLF ++ ResponseAuthSuccess))
            (CRLF ++ CRLF ++ ResponseWelcome)),
          "", [password ++ CRLF]⟩) := by
  have he := goExecute_valid writeErr buffer password hne hlen
  refine ⟨?_, ?_, ?_⟩
  · intro h1
    unfold goAuth
    rw [he]
    simp [h1]
  · intro h1 h2
    unfold goAuth
    rw [he]
    simp [h1, h2]
  · intro h1 h2
    unfold goAuth
    rw [he]
    simp [h1, h2]

/-- C2 witness at three concrete responses, one per branch. -/
theorem auth_classifies_response_inst :
    (goAuth true (.ioErr "")
        (ResponseEnterPassword ++ CRLF ++ ResponseAuthIncorrectPassword)
        "p").err = some .authFailed
    ∧ (goAuth true (.ioErr "") "hello" "p").err = some .authUnexpected
    ∧ (goAuth true (.ioErr "")
        (ResponseEnterPassword ++ CRLF ++ ResponseAuthSuccess ++ CRLF ++
          "stat" ++ CRLF ++ CRLF ++ ResponseWelcome) "p").status = "stat" := by
  refine ⟨?_, ?_, ?_⟩
  · rw [(auth_classifies_response (.ioErr "") _ "p" (by decide) (by decide)).1
      (by decide)]
  · rw [(auth_classifies_response (.ioErr "") _ "p" (by decide) (by decide)).2.1
      (by decide) (by decide)]
  · rw [(auth_classifies_response (.ioErr "") _ "p" (by decide) (by decide)).2.2
      (by decide) (by decide)]
    decide

/-- C3: Execute on the empty command fails with the empty-command error,
on a command longer than 1000 bytes fails with the too-long error, in
both cases with an empty result and no socket write; a 1000-byte command
passes the validation. -/
theorem execute_rejects_invalid (settings : Settings) (localAddr : String)
    (writeOk : Bool) (writeErr : GoError) (buffer command : String) :
    (goConnExecute settings localAddr writeOk writeErr buffer "" =
      ⟨"", some .commandEmpty, buffer, [], []⟩)
    ∧ (MaxCommandLen < command.utf8ByteSize →
        goConnExecute settings localAddr writeOk writeErr buffer command =
          ⟨"", some .commandTooLong, buffer, [], []⟩)
    ∧ (command ≠ "" → command.utf8ByteSize = MaxCommandLen →
        (goConnExecute settings localAddr true writeErr buffer command).err
          = none) := by
  refine ⟨?_, ?_, ?_⟩
  · simp [goConnExecute, goExecute]
  · intro h
    have hne : command ≠ "" := by
      rintro rfl
      exact absurd h (by decide)
    simp [goConnExecute, goExecute, hne, h]
  · intro h1 h2
    rw [goConnExecute_of_valid settings localAddr writeErr buffer command h1
      (Nat.le_of_eq h2)]
    by_cases hc : settings.clearResponse
    · simp only [hc, if_true]
      split
      · rfl
      · rfl
    · simp [hc]

/-- C3 witness: the empty command, a 1001-byte command and a 1000-byte
command. -/
theorem execute_rejects_invalid_inst :
    (goConnExecute DefaultSettings "addr" false (.ioErr "") "buf" "" =
      ⟨"", some .commandEmpty, "buf", [], []⟩)
    ∧ (goConnExecute DefaultSettings "addr" false (.ioErr "") "buf"
        (String.mk (List.replicate 1001 'a')) =
          ⟨"", some .commandTooLong, "buf", [], []⟩)
    ∧ (goConnExecute DefaultSettings "addr" true (.ioErr "") "buf"
        (String.mk (List.replicate 1000 'a'))).err = none := by
  refine ⟨?_, ?_, ?_⟩
  · exact (execute_rejects_invalid DefaultSettings "addr" false (.ioErr "")
      "buf" "x").1
  · exact (execute_rejects_invalid DefaultSettings "addr" false (.ioErr "")
      "buf" (String.mk (List.replicate 1001 'a'))).2.1 (by decide)
  · exact (execute_rejects_invalid DefaultSettings "addr" true (.ioErr "")
      "buf" (String.mk (List.replicate 1000 'a'))).2.2 (by decide) (by decide)

/-- C6 counterexample: the claim quantifies over both servers, but a
second MockServer.Close call is not a no-op: it panics closing the
already-closed quit channel. -/
theorem mock_double_close_panics_cex :
    (mockClose ((mockClose ⟨false, false, false, []⟩).2)).1 =
      CloseResult.panicked "close of closed channel" := by decide

/-- C6 amended: the telnettest Server Close is idempotent (a second call
returns at the closed guard and changes nothing), while a MockServer
whose quit channel is not yet closed panics on the second Close call. -/
theorem close_idempotency_split (st : TSrvState) (m : MockSrvState)
    (hm : m.quitClosed = false) :
    serverClose (serverClose st) = serverClose st
    ∧ (serverClose st).closed = true
    ∧ (mockClose ((mockClose m).2)).1 =
        CloseResult.panicked "close of closed channel" := by
  refine ⟨?_, ?_, ?_⟩
  · by_cases h : st.closed <;> simp [serverClose, h]
  · by_cases h : st.closed <;> simp [serverClose, h]
  · simp [mockClose, hm]

/-- C6 witness at concrete states. -/
theorem close_idempotency_split_inst :
    serverClose (serverClose ⟨false, false, false, []⟩) =
      serverClose ⟨false, false, false, []⟩
    ∧ (mockClose ((mockClose ⟨false, false, true, [7]⟩).2)).1 =
        CloseResult.panicked "close of closed channel" := by
  have h := close_idempotency_split ⟨false, false, false, []⟩
    ⟨false, false, true, [7]⟩ (by decide)
  exact ⟨h.1, h.2.2⟩

/-- C7: when authentication inside Dial fails and the cleanup Close also
fails, Dial returns the single combined error wrapping the close failure
and the original authentication failure, and both messages survive in the
rendered text; when the cleanup Close succeeds, Dial returns the original
authentication error alone. -/
theorem dial_combines_cleanup_errors (connErr writeErr : GoError)
    (writeOk : Bool) (buffer password : String) (settings : Settings)
    (e : GoError)
    (hauth : (goAuth writeOk writeErr buffer password).err = some e)
    (closeErr : GoError) :
    (goDial true connErr writeOk writeErr buffer (some closeErr) settings
        password).err = some (.multi closeErr e)
    ∧ goContains (GoError.multi closeErr e).message closeErr.message = true
    ∧ goContains (GoError.multi closeErr e).message e.message = true
    ∧ (goDial true connErr writeOk writeErr buffer none settings
        password).err = some e := by
  refine ⟨?_, ?_, ?_, ?_⟩
  · simp [goDial, hauth]
  · exact goContains_decomp _ _
      ("an error occurred while handling another error" ++ ": ").data
      ((". Previous error: " ++ e.message).data)
      (by simp [GoError.message, String.data_append, List.append_assoc])
  · exact goContains_decomp _ _
      ("an error occurred while handling another error" ++ ": " ++
        closeErr.message ++ ". Previous error: ").data []
      (by simp [GoError.message, String.data_append, List.append_assoc])
  · simp [goDial, hauth]

/-- C7 witness: a drained response without any marker makes auth fail
with the unexpected-response error; with a failing cleanup close Dial
returns the combined error, with a clean close the original error. -/
theorem dial_combines_cleanup_errors_inst :
    (goDial true (.ioErr "c") true (.ioErr "w") "bad" (some (.ioErr "boom"))
        DefaultSettings "p").err = some (.multi (.ioErr "boom") .authUnexpected)
    ∧ (goDial true (.ioErr "c") true (.ioErr "w") "bad" none DefaultSettings
        "p").err = some .authUnexpected := by
  have h := dial_combines_cleanup_errors (.ioErr "c") (.ioErr "w") true "bad" "p"
    DefaultSettings .authUnexpected (by decide) (.ioErr "boom")
  exact ⟨h.1, h.2.2.2⟩

/-- C9: reportError never blocks: with free space in the capacity-10
queue the error is enqueued and true is returned; with a full queue the
error is dropped after printing a diagnostic notice and false is
returned; a nil error is ignored; the queue never grows beyond its
capacity. -/
theorem report_error_bounded_queue (queue : List String) (e : String) :
    (queue.length < mockErrorsCap →
      reportError queue (some e) = ⟨true, queue ++ [e], []⟩)
    ∧ (mockErrorsCap ≤ queue.length →
      reportError queue (some e) =
        ⟨false, queue, ["erros channel is locked: " ++ e ++ "\n"]⟩)
    ∧ reportError queue none = ⟨false, queue, []⟩
    ∧ (queue.length ≤ mockErrorsCap →
      (reportError queue (some e)).queue.length ≤ mockErrorsCap) := by
  refine ⟨?_, ?_, rfl, ?_⟩
  · intro h
    simp [reportError, h]
  · intro h
    simp [reportError, Nat.not_lt.mpr h]
  · intro h
    by_cases hq : queue.length < mockErrorsCap
    · simp [reportError, hq]
      exact hq
    · simp [reportError, hq]
      exact h

/-- C9 witness: an empty queue accepts the error, a full queue drops it
with the printed notice. -/
theorem report_error_bounded_queue_inst :
    reportError [] (some "boom") = ⟨true, [] ++ ["boom"], []⟩
    ∧ reportError (List.replicate 10 "x") (some "boom") =
        ⟨false, List.replicate 10 "x",
          ["erros channel is locked: " ++ "boom" ++ "\n"]⟩ := by
  exact ⟨(report_error_bounded_queue [] "boom").1 (by decide),
    (report_error_bounded_queue (List.replicate 10 "x") "boom").2.1
      (by decide)⟩

/-- C10 counterexample: with a socket that opens and a cleanup Close that
fails, Dial with the empty password returns the combined error, not
exactly the empty-command error. -/
theorem dial_empty_password_close_fail_cex :
    (goDial true (.ioErr "c") true (.ioErr "w") "" (some (.ioErr "close failed"))
        DefaultSettings "").err =
      some (.multi (.ioErr "close failed") .commandEmpty)
    ∧ (goDial true (.ioErr "c") true (.ioErr "w") "" (some (.ioErr "close failed"))
        DefaultSettings "").err ≠ some .commandEmpty := by decide

/-- C10 amended: Dial with the empty password performs no password write
(the auth phase writes nothing; the only write of the whole call is the
cleanup exit command) and, provided the cleanup Close succeeds, returns
exactly the empty-command error; when the cleanup Close fails it returns
the combined error wrapping the close failure and the empty-command
error. -/
theorem dial_empty_password_validation (connErr writeErr : GoError)
    (writeOk : Bool) (buffer : String) (settings : Settings)
    (e2 : GoError) :
    (goAuth writeOk writeErr buffer "").writes = []
    ∧ (goAuth writeOk writeErr buffer "").err = some .commandEmpty
    ∧ (goDial true connErr writeOk writeErr buffer none settings "").err
        = some .commandEmpty
    ∧ (goDial true connErr writeOk writeErr buffer none settings "").writes
        = [settings.exitCommand ++ CRLF]
    ∧ (goDial true connErr writeOk writeErr buffer (some e2) settings
        "").err = some (.multi e2 .commandEmpty) := by
  refine ⟨?_, ?_, ?_, ?_, ?_⟩ <;> simp [goDial, goAuth, goExecute]

/-- C4 counterexample: with clearing enabled and a response containing the
echo line twice, Execute returns only the segment between the two
occurrences, not the whole text following the first occurrence. -/
theorem executeClear_double_echo_cex :
    (goConnExecute (SetClearResponse true DefaultSettings) "a" true (.ioErr "")
        (responseINFMessage "c" "a" ++ "A" ++ responseINFMessage "c" "a" ++ "B")
        "c").response = "A"
    ∧ ("A" : String) ≠ "A" ++ responseINFMessage "c" "a" ++ "B" := by decide

/-- C4 amended: with clearing disabled, or with no occurrence of the echo
line, Execute returns the drained response unchanged; with clearing
enabled it returns the segment of the response between the end of the
first occurrence of the echo line and the next occurrence when one
exists, and the whole remainder when the line occurs exactly once. -/
theorem executeClear_returns_split_segment (settings : Settings)
    (localAddr : String) (writeErr : GoError) (buffer command : String)
    (hne : command ≠ "") (hlen : command.utf8ByteSize ≤ MaxCommandLen)
    (i j : Nat) :
    (settings.clearResponse = false →
      (goConnExecute settings localAddr true writeErr buffer command).response
        = String.mk (drained buffer))
    ∧ ((∀ k, k < (drained buffer).length →
          (infMsg command localAddr).isPrefixOf
            ((drained buffer).drop k) = false) →
      (goConnExecute settings localAddr true writeErr buffer command).response
        = String.mk (drained buffer))
    ∧ (settings.clearResponse = true →
       (infMsg command localAddr).isPrefixOf ((drained buffer).drop i) = true →
       (∀ k, k < i →
         (infMsg command localAddr).isPrefixOf
           ((drained buffer).drop k) = false) →
       (∀ k, i + (infMsg command localAddr).length ≤ k →
          k < (drained buffer).length →
         (infMsg command localAddr).isPrefixOf
           ((drained buffer).drop k) = false) →
      (goConnExecute settings localAddr true writeErr buffer command).response
        = String.mk ((drained buffer).drop
            (i + (infMsg command localAddr).length)))
    ∧ (settings.clearResponse = true →
       (infMsg command localAddr).isPrefixOf ((drained buffer).drop i) = true →
       (∀ k, k < i →
         (infMsg command localAddr).isPrefixOf
           ((drained buffer).drop k) = false) →
       (infMsg command localAddr).isPrefixOf ((drained buffer).drop j) = true →
       i + (infMsg command localAddr).length ≤ j →
       (∀ k, i + (infMsg command localAddr).length ≤ k → k < j →
         (infMsg command localAddr).isPrefixOf
           ((drained buffer).drop k) = false) →
      (goConnExecute settings localAddr true writeErr buffer command).response
        = String.mk (((drained buffer).drop
            (i + (infMsg command localAddr).length)).take
            (j - (i + (infMsg command localAddr).length)))) := by
  have hmsg : (infMsg command localAddr) ≠ [] :=
    responseINFMessage_ne_nil command localAddr
  refine ⟨?_, ?_, ?_, ?_⟩
  · intro hc
    rw [goConnExecute_of_valid settings localAddr writeErr buffer command hne hlen]
    simp [hc, drained]
  · intro hno
    rw [goConnExecute_of_valid settings localAddr writeErr buffer command hne hlen]
    by_cases hc : settings.clearResponse
    · have hsplit := goSplit_no_occ (infMsg command localAddr) (drained buffer)
        hmsg hno
      simp only [drained, infMsg] at hsplit
      simp [hc, hsplit, drained]
    · simp [hc, drained]
  · intro hc hp hmin hafter
    rw [goConnExecute_of_valid settings localAddr writeErr buffer command hne hlen]
    have hsplit := goSplit_unique_occ (infMsg command localAddr)
      (drained buffer) hmsg i hp hmin hafter
    simp only [drained, infMsg] at hsplit
    simp [hc, hsplit, drained, infMsg]
  · intro hc hp hmin hpj hij hbet
    rw [goConnExecute_of_valid settings localAddr writeErr buffer command hne hlen]
    obtain ⟨rest, hsplit⟩ := goSplit_two_occ (infMsg command localAddr)
      (drained buffer) hmsg i j hp hmin hpj hij hbet
    simp only [drained, infMsg] at hsplit
    simp [hc, hsplit, drained, infMsg]

/-- C4 witness: the four behaviors at concrete inputs: clearing disabled,
no occurrence, a unique occurrence, two occurrences. -/
theorem executeClear_returns_split_segment_inst :
    (goConnExecute DefaultSettings "a" true (.ioErr "") "zz" "c").response = "zz"
    ∧ (goConnExecute (SetClearResponse true DefaultSettings) "a" true
        (.ioErr "") "zz" "c").response = "zz"
    ∧ (goConnExecute (SetClearResponse true DefaultSettings) "a" true
        (.ioErr "") (responseINFMessage "c" "a" ++ "XY") "c").response = "XY"
    ∧ (goConnExecute (SetClearResponse true DefaultSettings) "a" true
        (.ioErr "")
        (responseINFMessage "c" "a" ++ "A" ++ responseINFMessage "c" "a" ++ "B")
        "c").response = "A" := by
  refine ⟨?_, ?_, ?_, ?_⟩
  · rw [(executeClear_returns_split_segment DefaultSettings "a" (.ioErr "")
      "zz" "c" (by decide) (by decide) 0 0).1 rfl]
    decide
  · rw [(executeClear_returns_split_segment (SetClearResponse true
      DefaultSettings) "a" (.ioErr "") "zz" "c" (by decide) (by decide)
      0 0).2.1 (by decide)]
    decide
  · rw [(executeClear_returns_split_segment (SetClearResponse true
      DefaultSettings) "a" (.ioErr "")
      (responseINFMessage "c" "a" ++ "XY") "c" (by decide) (by decide)
      0 0).2.2.1 rfl (by decide) (by decide) (by decide)]
    decide
  · rw [(executeClear_returns_split_segment (SetClearResponse true
      DefaultSettings) "a" (.ioErr "")
      (responseINFMessage "c" "a" ++ "A" ++ responseINFMessage "c" "a" ++ "B")
      "c" (by decide) (by decide) 0 45).2.2.2 rfl (by decide) (by decide)
      (by decide) (by decide) (by decide)]
    decide

/-- When no chunk of the input matches the password, the Server auth loop
with the default handler runs through all its fuel: it never succeeds,
invokes the handler once per fuel unit, appends one incorrect-password
prompt per invocation and ends with the too-many-fails message. -/
theorem srvAuthLoop_all_wrong (pwd : List UInt8) (f : Nat) :
    ∀ (input : List UInt8) (c : Ctx), c.authBreak = false →
    (∀ k, k < f → readChunk pwd.length (input.drop (k * pwd.length)) ≠ pwd) →
    (srvAuthLoop (authHandler pwd) pwd.length f input c).success = false
    ∧ (srvAuthLoop (authHandler pwd) pwd.length f input c).calls = f
    ∧ (srvAuthLoop (authHandler pwd) pwd.length f input c).ctx.out =
        c.out ++ List.replicate f (ResponseAuthIncorrectPassword ++ CRLF) ++
          [ResponseAuthTooManyFails ++ CRLF] := by
  induction f with
  | zero =>
      intro input c hc hw
      simp [srvAuthLoop]
  | succ f ih =>
      intro input c hc hw
      have h0 : readChunk pwd.length input ≠ pwd := by
        simpa using hw 0 (by omega)
      have hbreak : (authHandler pwd
          { c with request := readChunk pwd.length input }).authBreak = false := by
        simp [authHandler, h0, hc]
      have hshift : ∀ k, k < f → readChunk pwd.length
          ((input.drop pwd.length).drop (k * pwd.length)) ≠ pwd := by
        intro k hk
        rw [List.drop_drop]
        have harith : pwd.length + k * pwd.length = (k + 1) * pwd.length := by
          rw [Nat.succ_mul, Nat.add_comm]
        rw [harith]
        exact hw (k + 1) (by omega)
      obtain ⟨ih1, ih2, ih3⟩ := ih (input.drop pwd.length)
        (authHandler pwd { c with request := readChunk pwd.length input })
        hbreak hshift
      refine ⟨?_, ?_, ?_⟩
      · simp only [srvAuthLoop]
        simp [hbreak, ih1]
      · simp only [srvAuthLoop]
        simp [hbreak, ih2]
      · simp only [srvAuthLoop]
        simp only [hbreak, Bool.false_eq_true, if_false]
        rw [ih3]
        simp [authHandler, h0, List.replicate_succ, List.append_assoc]

/-- The one-step unfolding of the mock auth loop at positive fuel. -/
theorem mockAuthLoop_succ (f a : Nat) (input : List UInt8) :
    mockAuthLoop (f + 1) a input =
      (let req := readChunk mockPasswordBytes.length input
       if req = mockPasswordBytes then
         ⟨true,
           [ResponseAuthSuccess ++ CRLF ++ CRLF ++ CRLF ++ CRLF,
            MockAuthSuccessWelcomeMessage ++ CRLF ++ CRLF], [req], 1⟩
       else if req = unexpectSentinel then
         ⟨false, ["My spoon is too big" ++ CRLF ++ CRLF], [req], 1⟩
       else if a = authLimit then
         ⟨false, [ResponseAuthTooManyFails ++ CRLF], [req], 1⟩
       else
         let rest := mockAuthLoop f (a + 1) (input.drop mockPasswordBytes.length)
         ⟨rest.success, (ResponseAuthIncorrectPassword ++ CRLF) :: rest.out,
           req :: rest.reads, rest.checks + 1⟩) := rfl

/-- When no chunk of the input matches the password or the sentinel, the
mock auth loop checks the password once per fuel unit, writing the
incorrect prompt on every attempt but the last and the too-many-fails
message on the last. -/
theorem mockAuthLoop_all_wrong (f : Nat) :
    ∀ (a : Nat) (input : List UInt8), 1 ≤ f → a + f = authLimit + 1 →
    (∀ k, k < f → readChunk mockPasswordBytes.length
        (input.drop (k * mockPasswordBytes.length)) ≠ mockPasswordBytes) →
    (∀ k, k < f → readChunk mockPasswordBytes.length
        (input.drop (k * mockPasswordBytes.length)) ≠ unexpectSentinel) →
    (mockAuthLoop f a input).success = false
    ∧ (mockAuthLoop f a input).checks = f
    ∧ (mockAuthLoop f a input).out =
        List.replicate (f - 1) (ResponseAuthIncorrectPassword ++ CRLF) ++
          [ResponseAuthTooManyFails ++ CRLF] := by
  induction f with
  | zero =>
      intro a input h1 h2 hw hs
      exact absurd h1 (by omega)
  | succ f ih =>
      intro a input h1 h2 hw hs
      have hw0 : readChunk mockPasswordBytes.length input ≠ mockPasswordBytes := by
        simpa using hw 0 (by omega)
      have hs0 : readChunk mockPasswordBytes.length input ≠ unexpectSentinel := by
        simpa using hs 0 (by omega)
      cases f with
      | zero =>
          have ha : a = authLimit := by omega
          subst ha
          simp [mockAuthLoop, hw0, hs0]
      | succ f' =>
          have ha : a ≠ authLimit := by
            simp only [authLimit] at h2 ⊢
            omega
          have hshift : ∀ P : List UInt8 → Prop,
              (∀ k, k < f' + 2 → P (readChunk mockPasswordBytes.length
                (input.drop (k * mockPasswordBytes.length)))) →
              ∀ k, k < f' + 1 → P (readChunk mockPasswordBytes.length
                ((input.drop mockPasswordBytes.length).drop
                  (k * mockPasswordBytes.length))) := by
            intro P hP k hk
            rw [List.drop_drop]
            have harith : mockPasswordBytes.length +
                k * mockPasswordBytes.length =
                (k + 1) * mockPasswordBytes.length := by
              rw [Nat.succ_mul, Nat.add_comm]
            rw [harith]
            exact hP (k + 1) (by omega)
          obtain ⟨ih1, ih2, ih3⟩ := ih (a + 1)
            (input.drop mockPasswordBytes.length) (by omega) (by omega)
            (hshift (fun b => b ≠ mockPasswordBytes) hw)
            (hshift (fun b => b ≠ unexpectSentinel) hs)
          refine ⟨?_, ?_, ?_⟩
          · rw [mockAuthLoop_succ]
            dsimp only
            rw [if_neg hw0, if_neg hs0, if_neg ha]
            exact ih1
          · rw [mockAuthLoop_succ]
            dsimp only
            rw [if_neg hw0, if_neg hs0, if_neg ha]
            dsimp only
            rw [ih2]
          · rw [mockAuthLoop_succ]
            dsimp only
            rw [if_neg hw0, if_neg hs0, if_neg ha]
            dsimp only
            rw [ih3]
            simp [List.replicate_succ]

/-- C5 counterexample: with a password stream that never matches, the
telnettest Server auth loop invokes the handler only 9 times, not the 10
times the claim states for the limit of 10. -/
theorem server_auth_nine_calls_cex :
    (srvAuth (authHandler (asciiBytes "pw")) (asciiBytes "pw")
      (List.replicate 40 120)).calls = 9
    ∧ (srvAuth (authHandler (asciiBytes "pw")) (asciiBytes "pw")
      (List.replicate 40 120)).calls ≠ 10 := by decide

/-- C5 amended: with attempts that never match (nor hit the sentinel),
the telnettest Server invokes the handler exactly limit - 1 = 9 times,
emits the incorrect prompt after each invocation of the default handler
and terminates with the too-many-fails message and failure, while the
MockServer checks the password exactly limit = 10 times, emitting the
incorrect prompt after each of the first 9 checks and the too-many-fails
message at the 10th. -/
theorem auth_retry_counts (pwd input input2 : List UInt8)
    (hsrv : ∀ k, k < authLimit - 1 →
      readChunk pwd.length (input.drop (k * pwd.length)) ≠ pwd)
    (hm1 : ∀ k, k < authLimit → readChunk mockPasswordBytes.length
      (input2.drop (k * mockPasswordBytes.length)) ≠ mockPasswordBytes)
    (hm2 : ∀ k, k < authLimit → readChunk mockPasswordBytes.length
      (input2.drop (k * mockPasswordBytes.length)) ≠ unexpectSentinel) :
    (srvAuth (authHandler pwd) pwd input).success = false
    ∧ (srvAuth (authHandler pwd) pwd input).calls = authLimit - 1
    ∧ (srvAuth (authHandler pwd) pwd input).ctx.out =
        [ResponseEnterPassword ++ CRLF] ++
        List.replicate (authLimit - 1) (ResponseAuthIncorrectPassword ++ CRLF)
        ++ [ResponseAuthTooManyFails ++ CRLF]
    ∧ (mockAuth input2).success = false
    ∧ (mockAuth input2).checks = authLimit
    ∧ (mockAuth input2).out =
        [ResponseEnterPassword ++ CRLF] ++
        List.replicate (authLimit - 1) (ResponseAuthIncorrectPassword ++ CRLF)
        ++ [ResponseAuthTooManyFails ++ CRLF] := by
  obtain ⟨hs1, hs2, hs3⟩ := srvAuthLoop_all_wrong pwd (authLimit - 1) input
    ⟨[], false, false, [ResponseEnterPassword ++ CRLF]⟩ rfl hsrv
  obtain ⟨hk1, hk2, hk3⟩ := mockAuthLoop_all_wrong authLimit 1 input2
    (by decide) (by decide) hm1 hm2
  refine ⟨hs1, hs2, ?_, hk1, ?_, ?_⟩
  · rw [srvAuth, hs3]
  · simp [mockAuth, hk2]
  · simp [mockAuth, hk3]

/-- C5 witness at concrete never-matching inputs. -/
theorem auth_retry_counts_inst :
    (srvAuth (authHandler (asciiBytes "pw")) (asciiBytes "pw")
      (List.replicate 40 120)).calls = authLimit - 1
    ∧ (mockAuth (List.replicate 100 120)).checks = authLimit := by
  have h := auth_retry_counts (asciiBytes "pw") (List.replicate 40 120)
    (List.replicate 100 120) (by decide) (by decide) (by decide)
  exact ⟨h.2.1, h.2.2.2.2.1⟩

/-- Every chunk the Server auth loop reads is the next slice of exactly n
bytes of the client stream, whatever the handler does. -/
theorem srvAuthLoop_reads (handler : Ctx → Ctx) (n : Nat) (f : Nat) :
    ∀ (input : List UInt8) (c : Ctx) (k : Nat),
      k < (srvAuthLoop handler n f input c).reads.length →
      (srvAuthLoop handler n f input c).reads.getD k [] =
        readChunk n (input.drop (k * n)) := by
  induction f with
  | zero =>
      intro input c k hk
      simp [srvAuthLoop] at hk
  | succ f ih =>
      intro input c k hk
      by_cases hb : (handler { c with request := readChunk n input }).authBreak
      · simp [srvAuthLoop, hb] at hk ⊢
        have hk0 : k = 0 := by omega
        subst hk0
        simp
      · simp only [srvAuthLoop] at hk ⊢
        rw [if_neg (by simp [hb])] at hk
        rw [if_neg (by simp [hb])]
        cases k with
        | zero => simp
        | succ k' =>
            simp only [List.getD_cons_succ]
            have hk' : k' < (srvAuthLoop handler n f (input.drop n)
                (handler { c with request := readChunk n input })).reads.length := by
              simpa using hk
            rw [ih (input.drop n) _ k' hk', List.drop_drop]
            have harith : n + k' * n = (k' + 1) * n := by
              rw [Nat.succ_mul, Nat.add_comm]
            rw [harith]

/-- Every chunk the mock auth loop reads is the next slice of exactly
len(MockPassword) bytes of the client stream. -/
theorem mockAuthLoop_reads (f : Nat) :
    ∀ (a : Nat) (input : List UInt8) (k : Nat),
      k < (mockAuthLoop f a input).reads.length →
      (mockAuthLoop f a input).reads.getD k [] =
        readChunk mockPasswordBytes.length
          (input.drop (k * mockPasswordBytes.length)) := by
  induction f with
  | zero =>
      intro a input k hk
      simp [mockAuthLoop] at hk
  | succ f ih =>
      intro a input k hk
      rw [mockAuthLoop_succ] at hk ⊢
      dsimp only at hk ⊢
      by_cases h1 : readChunk mockPasswordBytes.length input = mockPasswordBytes
      · rw [if_pos h1] at hk ⊢
        simp at hk
        have hk0 : k = 0 := by omega
        subst hk0
        simp
      · rw [if_neg h1] at hk ⊢
        by_cases h2 : readChunk mockPasswordBytes.length input = unexpectSentinel
        · rw [if_pos h2] at hk ⊢
          simp at hk
          have hk0 : k = 0 := by omega
          subst hk0
          simp
        · rw [if_neg h2] at hk ⊢
          by_cases h3 : a = authLimit
          · rw [if_pos h3] at hk ⊢
            simp at hk
            have hk0 : k = 0 := by omega
            subst hk0
            simp
          · rw [if_neg h3] at hk ⊢
            cases k with
            | zero => simp
            | succ k' =>
                simp only [List.getD_cons_succ]
                have hk' : k' < (mockAuthLoop f (a + 1)
                    (input.drop mockPasswordBytes.length)).reads.length := by
                  simpa using hk
                rw [ih (a + 1) (input.drop mockPasswordBytes.length) k' hk',
                  List.drop_drop]
                have harith : mockPasswordBytes.length +
                    k' * mockPasswordBytes.length =
                    (k' + 1) * mockPasswordBytes.length := by
                  rw [Nat.succ_mul, Nat.add_comm]
                rw [harith]

/-- C8: in both server auth loops, each password attempt reads exactly as
many bytes as the byte length of the configured password, never a
CRLF-delimited line: attempt k consumes exactly the k-th n-byte slice of
the client stream, for every handler, password and input. -/
theorem auth_reads_exact_chunks (handler : Ctx → Ctx)
    (pwd input input2 : List UInt8) (k k2 : Nat)
    (hk : k < (srvAuth handler pwd input).reads.length)
    (hk2 : k2 < (mockAuth input2).reads.length) :
    (srvAuth handler pwd input).reads.getD k [] =
      readChunk pwd.length (input.drop (k * pwd.length))
    ∧ (mockAuth input2).reads.getD k2 [] =
      readChunk mockPasswordBytes.length
        (input2.drop (k2 * mockPasswordBytes.length)) := by
  constructor
  · exact srvAuthLoop_reads handler pwd.length (authLimit - 1) input
      ⟨[], false, false, [ResponseEnterPassword ++ CRLF]⟩ k hk
  · exact mockAuthLoop_reads authLimit 1 input2 k2 (by simpa [mockAuth] using hk2)

/-- C8 witness: streams containing CRLF bytes are still consumed in plain
fixed-size slices; the second chunk starts right after the first even
though a CRLF appeared inside the first one. -/
theorem auth_reads_exact_chunks_inst :
    (srvAuth (authHandler (asciiBytes "pw")) (asciiBytes "pw")
      (asciiBytes "a\r\nbcd")).reads.getD 1 [] =
      readChunk (asciiBytes "pw").length ((asciiBytes "a\r\nbcd").drop 2)
    ∧ (mockAuth (asciiBytes "ab\r\ncdefgh123456")).reads.getD 1 [] =
      readChunk mockPasswordBytes.length
        ((asciiBytes "ab\r\ncdefgh123456").drop 8) := by
  have h := auth_reads_exact_chunks (authHandler (asciiBytes "pw"))
    (asciiBytes "pw") (asciiBytes "a\r\nbcd")
    (asciiBytes "ab\r\ncdefgh123456") 1 1 (by decide) (by decide)
  exact ⟨h.1, h.2⟩

end Telnet
